import Mathlib

/-
Verification of the misconfigmate detection engine (src/misconfigmate.py).

Python strings are modelled as lists of characters (`Str`).  Each definition
below is a direct shallow embedding of a function or expression of the source
file; the line numbers of the embedded code are given in the doc comments.
The HTTP exchange performed by `requests.request` is modelled by an explicit
`Option HttpResponse` argument: `none` is a transport-level failure (the
`except Exception` path), `some r` is a received response.
-/

set_option autoImplicit false

/-- Strings of the Python program, modelled as lists of characters. -/
abbrev Str := List Char

/-- Boolean test that `pat` is an initial segment of `s` (the machine behind
Python's `str.startswith` and the stepwise substring scan). -/
def leadsWith : Str → Str → Bool
  | [], _ => true
  | _ :: _, [] => false
  | p :: ps, c :: cs => (p == c) && leadsWith ps cs

/-- Boolean substring test, modelling Python's `pat in s` on strings:
`pat` occurs contiguously somewhere in `s`. -/
def containsSub (pat : Str) : Str → Bool
  | [] => leadsWith pat []
  | c :: cs => leadsWith pat (c :: cs) || containsSub pat cs

/-- Mathematical substring relation: `pat` occurs contiguously in `s`,
as a literal, character-for-character (case-sensitive) segment. -/
def IsSubstr (pat s : Str) : Prop := ∃ u v, s = u ++ pat ++ v

/-- The placeholder `"{TARGET}"` used by the service templates. -/
def TGTL : Str := ['{', 'T', 'A', 'R', 'G', 'E', 'T', '}']

/-- Fuel-indexed worker for `pyReplaceTarget`; the fuel is only there to make
the recursion structural (it is always instantiated with the length of the
scanned string, which bounds the number of scan steps). -/
def replaceTargetAux (rep : Str) : Nat → Str → Str
  | _, [] => []
  | 0, s => s
  | fuel + 1, c :: cs =>
    if leadsWith TGTL (c :: cs) then rep ++ replaceTargetAux rep fuel (cs.drop 7)
    else c :: replaceTargetAux rep fuel cs

/-- Model of Python's `s.replace('{TARGET}', rep)` (misconfigmate.py lines
102 and 175): leftmost, non-overlapping replacement of every occurrence of
the placeholder. -/
def pyReplaceTarget (s rep : Str) : Str := replaceTargetAux rep s.length s

/-- Model of Python's `path.lstrip('/')` (line 178). -/
def dropSlashes (l : Str) : Str := l.dropWhile (fun c => c == '/')

/-- Model of Python's `url.rstrip('/')` (line 178). -/
def rstripSlashes (l : Str) : Str := (dropSlashes l.reverse).reverse

/-- The characters of `"http://"`. -/
def httpMark : Str := ['h', 't', 't', 'p', ':', '/', '/']

/-- The characters of `"https://"`. -/
def httpsMark : Str := ['h', 't', 't', 'p', 's', ':', '/', '/']

/-- Model of lines 176-177 of misconfigmate.py:
`if not url.startswith(('http://', 'https://')): url = f"https://{url}"`. -/
def schemeNorm (url : Str) : Str :=
  if leadsWith httpMark url || leadsWith httpsMark url then url else httpsMark ++ url

/-- Model of line 178 of misconfigmate.py:
`url = f"{url.rstrip('/')}/{path.lstrip('/')}"`. -/
def joinURL (url path : Str) : Str := rstripSlashes url ++ '/' :: dropSlashes path

/-- Model of the body of the inner loop of `generate_urls` (lines 175-178):
substitute the permutation into the baseURL, normalize the scheme, join the
path with a single slash. -/
def expandOne (baseURL domain path : Str) : Str :=
  joinURL (schemeNorm (pyReplaceTarget baseURL domain)) path

/-- Acceptable status code of a template: line 118 of misconfigmate.py
branches on `isinstance(service['response']['statusCode'], list)`, so the
field is either a single code or a list of codes. -/
inductive StatusCodeSpec where
  | single (code : Nat)
  | codes (cs : List Nat)
deriving DecidableEq

/-- The `request` object of a service template. -/
structure RequestSpec where
  method : Str
  baseURL : Str
  path : List Str
  headers : List (Str × Str)
deriving DecidableEq

/-- The `response` object of a service template. -/
structure ResponseSpec where
  statusCode : StatusCodeSpec
  detectionFingerprints : List Str
  fingerprints : List Str
deriving DecidableEq

/-- The `metadata` object of a service template. -/
structure MetadataSpec where
  serviceName : Str
  description : Str
  reproductionSteps : List Str
  references : List Str
deriving DecidableEq

/-- One service template (an element of services.json). -/
structure Service where
  request : RequestSpec
  response : ResponseSpec
  metadata : MetadataSpec
deriving DecidableEq

/-- The scanner state relevant to the claims: constructor lines 44-56 of
misconfigmate.py (target, skip_checks, global headers, and the two mutable
counters). -/
structure Mapper where
  target : Str
  skip_checks : Bool
  headers : List (Str × Str)
  discovered : Nat
  errors : Nat
deriving DecidableEq

/-- An HTTP response as observed by `_check_endpoint`. -/
structure HttpResponse where
  status_code : Nat
  text : Str
deriving DecidableEq

/-- The result dictionary built at lines 130-141 of misconfigmate.py. -/
structure ProbeResult where
  timestamp : Str
  target : Str
  url : Str
  exists_ : Bool
  vulnerable : Bool
  service : Str
  description : Str
  reproduction_steps : List Str
  references : List Str
  status_code : Nat
deriving DecidableEq

/-- Lines 117-121 of misconfigmate.py: membership test for a list of codes,
equality for a single code. -/
def statusMatches (sc : StatusCodeSpec) (code : Nat) : Bool :=
  match sc with
  | .single n => code == n
  | .codes ns => ns.contains code

/-- Line 113 of misconfigmate.py:
`exists = any(fp in response.text for fp in service['response']['detectionFingerprints'])`. -/
def computeExists (service : Service) (body : Str) : Bool :=
  service.response.detectionFingerprints.any fun fp => containsSub fp body

/-- Lines 115-126 of misconfigmate.py: `vulnerable` starts false and is only
recomputed when vulnerability checking is enabled and the service exists. -/
def computeVulnerable (m : Mapper) (service : Service) (resp : HttpResponse)
    (svcExists : Bool) : Bool :=
  if !m.skip_checks && svcExists then
    statusMatches service.response.statusCode resp.status_code &&
      service.response.fingerprints.any (fun fp => containsSub fp resp.text)
  else false

/-- Lines 100-147 of misconfigmate.py, `_check_endpoint`.  The network call
is an explicit argument: `none` models any exception raised by
`requests.request` (timeout, connection error, TLS failure, malformed
response), which the `except Exception` handler turns into an error count and
a `None` return; `some response` models a received response.  `now` models
`datetime.now().isoformat()`.  The function returns the optional result
together with the updated scanner state. -/
def check_endpoint (m : Mapper) (url : Str) (service : Service) (now : Str)
    (net : Option HttpResponse) : Option ProbeResult × Mapper :=
  match net with
  | none => (none, { m with errors := m.errors + 1 })
  | some response =>
    let actual_url := pyReplaceTarget url m.target
    let svcExists := computeExists service response.text
    let vulnerable := computeVulnerable m service response svcExists
    if svcExists || vulnerable then
      (some { timestamp := now
              target := m.target
              url := actual_url
              exists_ := svcExists
              vulnerable := vulnerable
              service := service.metadata.serviceName
              description := service.metadata.description
              reproduction_steps := service.metadata.reproductionSteps
              references := service.metadata.references
              status_code := response.status_code },
       { m with discovered := m.discovered + 1 })
    else (none, m)

/-- Lookup in a Python dict modelled as an association list (first binding
wins, as keys of a dict are unique). -/
def lookupKV (hs : List (Str × Str)) (k : Str) : Option Str :=
  match hs with
  | [] => none
  | (k2, v) :: rest => if k2 = k then some v else lookupKV rest k

/-- Line 107 of misconfigmate.py:
`headers={**self.headers, **service.get('request', {}).get('headers', {})}` —
the merged mapping sent with the request; a template binding shadows a global
binding with the same key. -/
def requestHeaders (m : Mapper) (service : Service) (k : Str) : Option Str :=
  match lookupKV service.request.headers k with
  | some v => some v
  | none => lookupKV m.headers k

/-- The SUFFIXES constant, lines 21-26 of misconfigmate.py. -/
def SUFFIXES : List Str :=
  ["dev".data, "staging".data, "stage".data, "test".data, "prod".data, "qa".data,
   "internal".data, "corp".data, "team".data,
   "app".data, "api".data, "admin".data,
   "us".data, "eu".data, "asia".data]

/-- The PREFIXES constant, lines 28-35 of misconfigmate.py. -/
def PREFIXES : List Str :=
  ["dev".data, "staging".data, "test".data, "qa".data, "admin".data, "internal".data]

/-- Lines 149-165 of misconfigmate.py, `generate_permutations`: the base name,
`base-suffix` and `base.suffix` for every suffix, `prefixbase` and
`prefix.base` for every entry of the second vocabulary, collected in a
Python set.  The set is modelled as a duplicate-free list (`dedup`); the
iteration order of a Python set is unspecified, so only the underlying set of
strings is meaningful. -/
def generate_permutations (base_name : Str) : List Str :=
  (base_name ::
    (SUFFIXES.map (fun s => base_name ++ '-' :: s) ++
     SUFFIXES.map (fun s => base_name ++ '.' :: s) ++
     PREFIXES.map (fun p => p ++ base_name) ++
     PREFIXES.map (fun p => p ++ '.' :: base_name))).dedup

/-- Lines 167-184 of misconfigmate.py, `generate_urls`: the cross product of
services, permutations of the target, and template paths, each expanded by
`expandOne`. -/
def generate_urls (services : List Service) (target : Str) : List (Str × Service) :=
  services.flatMap fun service =>
    (generate_permutations target).flatMap fun domain =>
      service.request.path.map fun path =>
        (expandOne service.request.baseURL domain path, service)

/-- The deduplication identity used by the table view (line 230):
`key = (r['service'], r['url'])`. -/
def resKey (r : ProbeResult) : Str × Str := (r.service, r.url)

/-- Lines 227-233 of misconfigmate.py: the seen-set loop of `_display_table`,
keeping a result only when its key has not been seen before. -/
def dedupGo (seen : List (Str × Str)) : List ProbeResult → List ProbeResult
  | [] => []
  | r :: rs =>
    if resKey r ∈ seen then dedupGo seen rs
    else r :: dedupGo (resKey r :: seen) rs

/-- The `unique_results` list built by `_display_table`. -/
def uniqueResults (results : List ProbeResult) : List ProbeResult := dedupGo [] results

/-- Lines 251-252 of misconfigmate.py: the table reports the number of unique
results and the raw discovered counter. -/
def tableCounts (m : Mapper) (results : List ProbeResult) : Nat × Nat :=
  ((uniqueResults results).length, m.discovered)

/-- Modelled from the spec: first-seen-order deduplication stated directly —
keep the head and drop every later result with the same key. -/
def dedupFirstSeen : List ProbeResult → List ProbeResult
  | [] => []
  | r :: rs => r :: dedupFirstSeen (rs.filter fun x => decide (resKey x ≠ resKey r))
termination_by l => l.length
decreasing_by
  simp only [List.length_cons]
  exact Nat.lt_succ_of_le (List.length_filter_le _ _)

/-- The output formats of the -output CLI flag (line 318). -/
inductive OutputFormat where
  | table
  | json
  | jsonl
  | csv
  | webhook
deriving DecidableEq

/-- Lines 186-217 of misconfigmate.py, `_format_output`: the list of result
records each machine-facing branch hands to its serializer (`json.dumps(results)`,
per-line dumps over `results`, `writer.writerows(results)`, webhook `findings:
results`).  The table format is not handled there (the function returns
`None`), it goes through `_display_table` instead. -/
def formatRecords (fmt : OutputFormat) (results : List ProbeResult) :
    Option (List ProbeResult) :=
  match fmt with
  | .json => some results
  | .jsonl => some results
  | .csv => some results
  | .webhook => some results
  | .table => none

/-- Python truthiness of the optional -webhook argument at line 325:
`not args.webhook` is true when the argument is absent (None) or empty. -/
def webhookMissing (w : Option Str) : Bool :=
  match w with
  | none => true
  | some s => s.isEmpty

/-- What the webhook guard of `main` leads to. -/
inductive MainOutcome where
  | webhookConfigError
  | runScan
deriving DecidableEq

/-- Lines 325-327 of misconfigmate.py:
`if args.output == 'webhook' and not args.webhook: ...print...; return`. -/
def mainDispatch (output : OutputFormat) (webhook : Option Str) : MainOutcome :=
  if output = OutputFormat.webhook ∧ webhookMissing webhook = true then
    MainOutcome.webhookConfigError
  else MainOutcome.runScan

/-- Process exit status when `main` ends through the given outcome without
scanning.  The webhook guard executes a plain `return` from `main` (line 327)
after printing the error; falling off the end of the script, the CPython
interpreter then exits with status 0.  (Every other configuration-error path
of the program calls `sys.exit(1)` instead: lines 90, 95, 98, 334, 340.)
For `runScan` the exit status is decided later, hence `none`. -/
def processExitCode : MainOutcome → Option Nat
  | .webhookConfigError => some 0
  | .runScan => none

/-- Whether any probing happens under the given outcome of the guard. -/
def probingBegins : MainOutcome → Bool
  | .webhookConfigError => false
  | .runScan => true

/-- Interleaving model of the unsynchronized counter updates.  Python's
`self.errors += 1` (line 144) compiles to separate load and store bytecodes
on a shared attribute, so a worker thread can be preempted between its load
and its store.  `pending t = some v` means thread `t` has loaded the value
`v` and not yet stored `v + 1`; `done t` means thread `t` has finished its
increment. -/
structure IncState where
  counter : Nat
  pending : Nat → Option Nat
  done : Nat → Bool

/-- All counters start at zero, no thread has loaded or finished. -/
def initIncState : IncState :=
  { counter := 0, pending := fun _ => none, done := fun _ => false }

/-- One scheduler step giving thread `tid` the processor: a thread that has
not loaded yet performs its load; a thread with a pending load performs its
store; a finished thread does nothing. -/
def incStep (s : IncState) (tid : Nat) : IncState :=
  if s.done tid = true then s
  else
    match s.pending tid with
    | none => { s with pending := fun t => if t = tid then some s.counter else s.pending t }
    | some v =>
      { s with counter := v + 1,
               pending := fun t => if t = tid then none else s.pending t,
               done := fun t => if t = tid then true else s.done t }

/-- Run a whole schedule (a sequence of thread ids) from the initial state. -/
def runSchedule (sched : List Nat) : IncState := sched.foldl incStep initIncState

/-- A concrete service template used to instantiate theorems with hypotheses. -/
def exService : Service :=
  { request := { method := "GET".data, baseURL := "{TARGET}.example.com".data,
                 path := ["/login".data], headers := [("K".data, "tpl".data)] }
    response := { statusCode := .single 200,
                  detectionFingerprints := ["Welcome".data],
                  fingerprints := ["Sign".data] }
    metadata := { serviceName := "AcmeTool".data, description := "d".data,
                  reproductionSteps := [], references := [] } }

/-- A concrete scanner state used to instantiate theorems with hypotheses. -/
def exMapper : Mapper :=
  { target := "acme".data, skip_checks := false,
    headers := [("K".data, "global".data)], discovered := 0, errors := 0 }

/-- A concrete response whose body carries both fingerprints of `exService`. -/
def exResponse : HttpResponse := { status_code := 200, text := "Welcome Sign".data }

/-- The result `check_endpoint` produces for `exMapper`, `exService`,
`exResponse`. -/
def exResult : ProbeResult :=
  { timestamp := "t0".data, target := "acme".data, url := "u".data,
    exists_ := true, vulnerable := true, service := "AcmeTool".data,
    description := "d".data, reproduction_steps := [], references := [],
    status_code := 200 }

/-- Concrete result (svcA, u1) for the deduplication example. -/
def exResA1 : ProbeResult :=
  { timestamp := "t1".data, target := "acme".data, url := "u1".data, exists_ := true,
    vulnerable := false, service := "svcA".data, description := "d".data,
    reproduction_steps := [], references := [], status_code := 200 }

/-- A second (svcA, u1) result, differing from the first outside the key. -/
def exResA1b : ProbeResult := { exResA1 with timestamp := "t2".data }

/-- A (svcB, u1) result. -/
def exResB1 : ProbeResult := { exResA1 with service := "svcB".data }

theorem leadsWith_iff (pat : Str) : ∀ s : Str, leadsWith pat s = true ↔ ∃ v, s = pat ++ v := by
  induction pat with
  | nil => intro s; simp [leadsWith]
  | cons p ps ih =>
    intro s
    cases s with
    | nil => simp [leadsWith]
    | cons c cs =>
      simp [leadsWith, ih, List.cons_append]
      intro v _
      exact eq_comm

theorem containsSub_iff (pat : Str) : ∀ s : Str, containsSub pat s = true ↔ IsSubstr pat s := by
  intro s
  induction s with
  | nil =>
    cases pat with
    | nil =>
      simp only [containsSub, leadsWith, IsSubstr]
      exact ⟨fun _ => ⟨[], [], rfl⟩, fun _ => trivial⟩
    | cons p ps =>
      simp only [containsSub, leadsWith, IsSubstr]
      constructor
      · intro h; exact absurd h (by simp)
      · rintro ⟨u, v, huv⟩
        exact absurd huv.symm (by simp)
  | cons c cs ih =>
    simp only [containsSub, Bool.or_eq_true, leadsWith_iff, ih, IsSubstr]
    constructor
    · rintro (⟨v, hv⟩ | ⟨u, v, huv⟩)
      · exact ⟨[], v, by simpa using hv⟩
      · exact ⟨c :: u, v, by simp [huv]⟩
    · rintro ⟨u, v, huv⟩
      cases u with
      | nil => exact Or.inl ⟨v, by simpa using huv⟩
      | cons a u2 =>
        right
        simp only [List.cons_append, List.cons.injEq] at huv
        exact ⟨u2, v, huv.2⟩

theorem leadsWith_length {pat : Str} : ∀ {s : Str}, leadsWith pat s = true → pat.length ≤ s.length := by
  induction pat with
  | nil => intro s _; simp
  | cons p ps ih =>
    intro s h
    cases s with
    | nil => simp [leadsWith] at h
    | cons c cs =>
      simp only [leadsWith, Bool.and_eq_true] at h
      simpa using ih h.2

theorem replaceTargetAux_congr (rep : Str) :
    ∀ f1 f2 s, s.length ≤ f1 → s.length ≤ f2 →
      replaceTargetAux rep f1 s = replaceTargetAux rep f2 s := by
  intro f1
  induction f1 with
  | zero =>
    intro f2 s h1 _
    have hs : s = [] := List.eq_nil_of_length_eq_zero (Nat.le_zero.mp h1)
    subst hs
    cases f2 <;> rfl
  | succ g1 ih =>
    intro f2 s h1 h2
    cases s with
    | nil => cases f2 <;> rfl
    | cons c cs =>
      cases f2 with
      | zero => simp at h2
      | succ g2 =>
        simp only [List.length_cons, Nat.succ_le_succ_iff] at h1 h2
        simp only [replaceTargetAux]
        by_cases h : leadsWith TGTL (c :: cs) = true
        · rw [if_pos h, if_pos h]
          have hd : (cs.drop 7).length ≤ g1 := by
            simp only [List.length_drop]; omega
          have hd2 : (cs.drop 7).length ≤ g2 := by
            simp only [List.length_drop]; omega
          rw [ih _ _ hd hd2]
        · rw [if_neg h, if_neg h]
          rw [ih _ _ h1 h2]

theorem pyReplaceTarget_nil (rep : Str) : pyReplaceTarget [] rep = [] := rfl

theorem pyReplaceTarget_cons_pos {c : Char} {cs : Str} (rep : Str)
    (h : leadsWith TGTL (c :: cs) = true) :
    pyReplaceTarget (c :: cs) rep = rep ++ pyReplaceTarget (cs.drop 7) rep := by
  show replaceTargetAux rep (cs.length + 1) (c :: cs) = _
  simp only [replaceTargetAux, if_pos h]
  congr 1
  apply replaceTargetAux_congr
  · simp only [List.length_drop]; omega
  · exact Nat.le_refl _

theorem pyReplaceTarget_cons_neg {c : Char} {cs : Str} (rep : Str)
    (h : leadsWith TGTL (c :: cs) = false) :
    pyReplaceTarget (c :: cs) rep = c :: pyReplaceTarget cs rep := by
  show replaceTargetAux rep (cs.length + 1) (c :: cs) = _
  simp only [replaceTargetAux, h]
  rfl

theorem leadsWith_append_sep {pat : Str} {c : Char} (hc : c ∉ pat) :
    ∀ x y : Str, leadsWith pat (x ++ c :: y) = leadsWith pat x := by
  induction pat with
  | nil => intro x y; rfl
  | cons p ps ih =>
    intro x y
    cases x with
    | nil =>
      have hpc : (p == c) = false := by
        simp only [beq_eq_false_iff_ne]
        intro h
        exact hc (h ▸ List.mem_cons_self p ps)
      simp [leadsWith, hpc]
    | cons a as =>
      have hc2 : c ∉ ps := fun h => hc (List.mem_cons_of_mem p h)
      simp [leadsWith, ih hc2]

theorem pyReplaceTarget_append_sep_aux (t y : Str) :
    ∀ n x, x.length ≤ n →
      pyReplaceTarget (x ++ '/' :: y) t = pyReplaceTarget x t ++ '/' :: pyReplaceTarget y t := by
  have hsep : ('/' : Char) ∉ TGTL := by decide
  have hslash : ∀ z : Str, pyReplaceTarget ('/' :: z) t = '/' :: pyReplaceTarget z t := by
    intro z
    apply pyReplaceTarget_cons_neg
    rfl
  intro n
  induction n with
  | zero =>
    intro x hx
    have : x = [] := List.eq_nil_of_length_eq_zero (Nat.le_zero.mp hx)
    subst this
    simpa using hslash y
  | succ n ih =>
    intro x hx
    cases x with
    | nil => simpa using hslash y
    | cons a as =>
      simp only [List.length_cons, Nat.succ_le_succ_iff] at hx
      rw [List.cons_append]
      by_cases h : leadsWith TGTL (a :: as) = true
      · have h2 : leadsWith TGTL (a :: (as ++ '/' :: y)) = true := by
          rw [show a :: (as ++ '/' :: y) = (a :: as) ++ '/' :: y from rfl]
          rw [leadsWith_append_sep hsep]
          exact h
        rw [pyReplaceTarget_cons_pos t h2, pyReplaceTarget_cons_pos t h]
        have hlen : 7 ≤ as.length := by
          have := leadsWith_length h
          simp only [TGTL, List.length_cons] at this ⊢
          omega
        have hdrop : (as ++ '/' :: y).drop 7 = as.drop 7 ++ '/' :: y := by
          rw [List.drop_append_eq_append_drop]
          have : 7 - as.length = 0 := by omega
          rw [this, List.drop_zero]
        rw [hdrop]
        have hd : (as.drop 7).length ≤ n := by
          simp only [List.length_drop]; omega
        rw [ih _ hd, List.append_assoc]
      · have hb : leadsWith TGTL (a :: as) = false := Bool.not_eq_true _ ▸ eq_false_of_ne_true h
        have h2 : leadsWith TGTL (a :: (as ++ '/' :: y)) = false := by
          rw [show a :: (as ++ '/' :: y) = (a :: as) ++ '/' :: y from rfl]
          rw [leadsWith_append_sep hsep]
          exact hb
        rw [pyReplaceTarget_cons_neg t h2, pyReplaceTarget_cons_neg t hb]
        rw [ih _ hx]
        rfl

/-- Replacement distributes over the single separating slash of a joined URL,
because the placeholder contains no slash: no occurrence can span the
host/path boundary. -/
theorem pyReplaceTarget_append_sep (t x y : Str) :
    pyReplaceTarget (x ++ '/' :: y) t = pyReplaceTarget x t ++ '/' :: pyReplaceTarget y t :=
  pyReplaceTarget_append_sep_aux t y x.length x (Nat.le_refl _)

/-- A string with no occurrence of the placeholder is left unchanged by the
probe-time replacement. -/
theorem pyReplaceTarget_no_occ {s : Str} (t : Str) (h : containsSub TGTL s = false) :
    pyReplaceTarget s t = s := by
  induction s with
  | nil => rfl
  | cons c cs ih =>
    simp only [containsSub, Bool.or_eq_false_iff] at h
    rw [pyReplaceTarget_cons_neg t h.1, ih h.2]

theorem leadsWith_append_self (p : Str) : ∀ l : Str, leadsWith p (p ++ l) = true := by
  induction p with
  | nil => intro l; rfl
  | cons a as ih => intro l; simp [leadsWith, ih]

theorem schemeNorm_of_marked {url : Str}
    (h : (leadsWith httpMark url || leadsWith httpsMark url) = true) :
    schemeNorm url = url := by
  simp only [schemeNorm, h, if_true]

theorem schemeNorm_of_unmarked {url : Str}
    (h : (leadsWith httpMark url || leadsWith httpsMark url) = false) :
    schemeNorm url = httpsMark ++ url := by
  simp only [schemeNorm, h]
  rfl

theorem schemeNorm_idem (url : Str) : schemeNorm (schemeNorm url) = schemeNorm url := by
  by_cases h : (leadsWith httpMark url || leadsWith httpsMark url) = true
  · rw [schemeNorm_of_marked h, schemeNorm_of_marked h]
  · have hf : (leadsWith httpMark url || leadsWith httpsMark url) = false :=
      Bool.not_eq_true _ ▸ eq_false_of_ne_true h
    rw [schemeNorm_of_unmarked hf]
    apply schemeNorm_of_marked
    rw [leadsWith_append_self httpsMark url, Bool.or_true]

theorem head?_dropSlashes (l : Str) : (dropSlashes l).head? ≠ some '/' := by
  induction l with
  | nil => simp [dropSlashes]
  | cons c cs ih =>
    by_cases h : c = '/'
    · subst h
      simpa [dropSlashes, List.dropWhile_cons] using ih
    · simp [dropSlashes, List.dropWhile_cons, h]

theorem getLast?_rstripSlashes (l : Str) : (rstripSlashes l).getLast? ≠ some '/' := by
  rw [rstripSlashes, List.getLast?_reverse]
  exact head?_dropSlashes l.reverse

theorem dropSlashes_cons_slash (p : Str) : dropSlashes ('/' :: p) = dropSlashes p := by
  simp [dropSlashes, List.dropWhile_cons]

theorem rstripSlashes_append_slash (u : Str) : rstripSlashes (u ++ ['/']) = rstripSlashes u := by
  simp only [rstripSlashes, List.reverse_append, List.reverse_cons, List.reverse_nil,
    List.nil_append, List.cons_append]
  rw [dropSlashes_cons_slash]

theorem joinURL_slash_path (u p : Str) : joinURL u ('/' :: p) = joinURL u p := by
  simp only [joinURL, dropSlashes_cons_slash]

theorem joinURL_slash_url (u p : Str) : joinURL (u ++ ['/']) p = joinURL u p := by
  simp only [joinURL, rstripSlashes_append_slash]

theorem computeVulnerable_exists {m : Mapper} {service : Service} {resp : HttpResponse}
    {e : Bool} (h : computeVulnerable m service resp e = true) : e = true := by
  unfold computeVulnerable at h
  split at h
  · rename_i hc
    simp only [Bool.and_eq_true] at hc
    exact hc.2
  · exact absurd h (by simp)

/-- C1: the vulnerable flag of a probe is true iff the service exists,
vulnerability checking is not skipped, the response status matches the
template's acceptable code (equality for a single code, membership for a
list), and some vulnerability fingerprint is a substring of the body; with
skip-checks enabled it is false regardless; and every produced ProbeResult
satisfies vulnerable implies exists. -/
theorem check_endpoint_vulnerable_spec (m : Mapper) (service : Service) (resp : HttpResponse) :
    (computeVulnerable m service resp (computeExists service resp.text) = true ↔
       (computeExists service resp.text = true ∧ m.skip_checks = false ∧
        statusMatches service.response.statusCode resp.status_code = true ∧
        ∃ fp ∈ service.response.fingerprints, IsSubstr fp resp.text)) ∧
    (m.skip_checks = true →
       computeVulnerable m service resp (computeExists service resp.text) = false) ∧
    (∀ n, service.response.statusCode = StatusCodeSpec.single n →
       (statusMatches service.response.statusCode resp.status_code = true ↔
          resp.status_code = n)) ∧
    (∀ ns, service.response.statusCode = StatusCodeSpec.codes ns →
       (statusMatches service.response.statusCode resp.status_code = true ↔
          resp.status_code ∈ ns)) ∧
    (∀ url now pr m2, check_endpoint m url service now (some resp) = (some pr, m2) →
       pr.vulnerable = true → pr.exists_ = true) := by
  refine ⟨?_, ?_, ?_, ?_, ?_⟩
  · by_cases hs : m.skip_checks = true
    · simp [computeVulnerable, hs]
    · simp only [Bool.not_eq_true] at hs
      by_cases he : computeExists service resp.text = true
      · simp [computeVulnerable, hs, he, Bool.and_eq_true, List.any_eq_true, containsSub_iff]
      · simp only [Bool.not_eq_true] at he
        simp [computeVulnerable, hs, he]
  · intro hs
    simp [computeVulnerable, hs]
  · intro n h
    rw [h]
    simp [statusMatches]
  · intro ns h
    rw [h]
    simp [statusMatches]
  · intro url now pr m2 h hv
    simp only [check_endpoint] at h
    split at h
    · simp only [Prod.mk.injEq, Option.some.injEq] at h
      obtain ⟨hpr, _⟩ := h
      subst hpr
      simp only at hv ⊢
      exact computeVulnerable_exists hv
    · simp at h

/-- C1 witness: a concrete task on which a result is produced, with the
theorem's produced-result invariant applied to it. -/
theorem check_endpoint_vulnerable_spec_witness : exResult.exists_ = true :=
  (check_endpoint_vulnerable_spec exMapper exService exResponse).2.2.2.2
    ("u".data) ("t0".data) exResult { exMapper with discovered := 1 }
    (by decide) (by decide)

/-- C2: the exists flag is true iff at least one detection fingerprint of the
template occurs as a literal, case-sensitive substring of the response body
(character-for-character, no normalization). -/
theorem computeExists_spec (service : Service) (body : Str) :
    computeExists service body = true ↔
      ∃ fp ∈ service.response.detectionFingerprints, IsSubstr fp body := by
  simp [computeExists, List.any_eq_true, containsSub_iff]

/-- C3: a transport-level failure is absorbed at the probe boundary — it
increments the error tally by exactly one and yields no result; on a received
response, a populated result is returned iff exists or vulnerable holds, and
otherwise the task yields nothing and the scanner state (both counters) is
unchanged. -/
theorem check_endpoint_boundary_spec (m : Mapper) (url : Str) (service : Service) (now : Str) :
    (check_endpoint m url service now none = (none, { m with errors := m.errors + 1 })) ∧
    (∀ resp : HttpResponse,
       ((check_endpoint m url service now (some resp)).1.isSome = true ↔
          (computeExists service resp.text ||
             computeVulnerable m service resp (computeExists service resp.text)) = true) ∧
       ((computeExists service resp.text ||
           computeVulnerable m service resp (computeExists service resp.text)) = false →
          check_endpoint m url service now (some resp) = (none, m))) := by
  refine ⟨rfl, fun resp => ⟨?_, ?_⟩⟩
  · simp only [check_endpoint]
    split
    · rename_i hc
      simp [hc]
    · rename_i hc
      simp only [Bool.not_eq_true] at hc
      simp [hc]
  · intro h
    simp [check_endpoint, h]

/-- C3 witness: a response carrying no fingerprint yields no result and
leaves the scanner state untouched. -/
theorem check_endpoint_boundary_spec_witness :
    check_endpoint exMapper ("u".data) exService ("t0".data)
        (some { status_code := 500, text := "nothing here".data }) = (none, exMapper) :=
  ((check_endpoint_boundary_spec exMapper ("u".data) exService ("t0".data)).2
      { status_code := 500, text := "nothing here".data }).2 (by decide)

/-- C4: the permutation set always contains the base name, contains
`base-suffix` and `base.suffix` for every fixed suffix and `prefixbase` and
`prefix.base` for every fixed entry of the second vocabulary, contains
nothing else, has no duplicate entries, and its cardinality never exceeds
1 + 2·15 + 2·6 = 43 (collisions can only shrink it).  Determinism in the base
name holds because the embedding is a pure function of it. -/
theorem generate_permutations_spec (b : Str) :
    b ∈ generate_permutations b ∧
    (∀ s ∈ SUFFIXES, (b ++ '-' :: s) ∈ generate_permutations b ∧
                     (b ++ '.' :: s) ∈ generate_permutations b) ∧
    (∀ p ∈ PREFIXES, (p ++ b) ∈ generate_permutations b ∧
                     (p ++ '.' :: b) ∈ generate_permutations b) ∧
    (∀ x ∈ generate_permutations b,
       x = b ∨ (∃ s ∈ SUFFIXES, x = b ++ '-' :: s ∨ x = b ++ '.' :: s) ∨
       (∃ p ∈ PREFIXES, x = p ++ b ∨ x = p ++ '.' :: b)) ∧
    (generate_permutations b).Nodup ∧
    (generate_permutations b).length ≤ 43 := by
  refine ⟨?_, ?_, ?_, ?_, ?_, ?_⟩
  · exact List.mem_dedup.mpr (List.mem_cons_self _ _)
  · intro s hs
    constructor
    · exact List.mem_dedup.mpr (List.mem_cons_of_mem _
        (List.mem_append_left _ (List.mem_append_left _ (List.mem_append_left _
          (List.mem_map.mpr ⟨s, hs, rfl⟩)))))
    · exact List.mem_dedup.mpr (List.mem_cons_of_mem _
        (List.mem_append_left _ (List.mem_append_left _ (List.mem_append_right _
          (List.mem_map.mpr ⟨s, hs, rfl⟩)))))
  · intro p hp
    constructor
    · exact List.mem_dedup.mpr (List.mem_cons_of_mem _
        (List.mem_append_left _ (List.mem_append_right _
          (List.mem_map.mpr ⟨p, hp, rfl⟩))))
    · exact List.mem_dedup.mpr (List.mem_cons_of_mem _
        (List.mem_append_right _ (List.mem_map.mpr ⟨p, hp, rfl⟩)))
  · intro x hx
    rw [generate_permutations, List.mem_dedup] at hx
    simp only [List.mem_cons, List.mem_append, List.mem_map] at hx
    rcases hx with hb | (((⟨s, hs, he⟩ | ⟨s, hs, he⟩) | ⟨p, hp, he⟩) | ⟨p, hp, he⟩)
    · exact Or.inl hb
    · exact Or.inr (Or.inl ⟨s, hs, Or.inl he.symm⟩)
    · exact Or.inr (Or.inl ⟨s, hs, Or.inr he.symm⟩)
    · exact Or.inr (Or.inr ⟨p, hp, Or.inl he.symm⟩)
    · exact Or.inr (Or.inr ⟨p, hp, Or.inr he.symm⟩)
  · exact List.nodup_dedup _
  · refine le_trans (List.Sublist.length_le (List.dedup_sublist _)) ?_
    simp [SUFFIXES, PREFIXES]

/-- C4 witness: concrete members of the permutation set of the base name
`acme`. -/
theorem generate_permutations_spec_witness :
    ("acme".data ++ '-' :: "dev".data) ∈ generate_permutations ("acme".data) ∧
    ("dev".data ++ "acme".data) ∈ generate_permutations ("acme".data) :=
  ⟨((generate_permutations_spec ("acme".data)).2.1 ("dev".data) (by decide)).1,
   ((generate_permutations_spec ("acme".data)).2.2.1 ("dev".data) (by decide)).1⟩

/-- C5: URL expansion leaves a URL already carrying an http or https scheme
untouched at the scheme step, prefixes exactly one `https://` onto one
lacking a scheme (making the normalization idempotent), and joins the
scheme-and-host portion to the path with exactly one separating slash — the
left part of the join never ends in a slash, the right part never starts
with one, and extra trailing slashes on the URL or leading slashes on the
path do not change the join. -/
theorem url_normalization_spec (u p b d : Str) :
    ((leadsWith httpMark u || leadsWith httpsMark u) = true → schemeNorm u = u) ∧
    ((leadsWith httpMark u || leadsWith httpsMark u) = false →
       schemeNorm u = httpsMark ++ u) ∧
    schemeNorm (schemeNorm u) = schemeNorm u ∧
    joinURL u ('/' :: p) = joinURL u p ∧
    joinURL (u ++ ['/']) p = joinURL u p ∧
    joinURL u p = rstripSlashes u ++ '/' :: dropSlashes p ∧
    (rstripSlashes u).getLast? ≠ some '/' ∧
    (dropSlashes p).head? ≠ some '/' ∧
    expandOne b d p = joinURL (schemeNorm (pyReplaceTarget b d)) p :=
  ⟨schemeNorm_of_marked, schemeNorm_of_unmarked, schemeNorm_idem u,
   joinURL_slash_path u p, joinURL_slash_url u p, rfl,
   getLast?_rstripSlashes u, head?_dropSlashes p, rfl⟩

/-- C5 witness: the scheme step at concrete URLs with and without a scheme. -/
theorem url_normalization_spec_witness :
    schemeNorm ("x.io".data) = httpsMark ++ "x.io".data ∧
    schemeNorm ("https://x.io".data) = "https://x.io".data :=
  ⟨(url_normalization_spec ("x.io".data) [] [] []).2.1 (by decide),
   (url_normalization_spec ("https://x.io".data) [] [] []).1 (by decide)⟩

/-- C7 (refuting the claimed exit status): with -output webhook and no
webhook URL supplied, main takes the guard branch — the configuration error
is reported and no probing begins — but the branch is a plain `return` from
`main`, so the process exits with status 0, not 1. -/
theorem webhook_without_url_exits_zero :
    mainDispatch OutputFormat.webhook none = MainOutcome.webhookConfigError ∧
    probingBegins (mainDispatch OutputFormat.webhook none) = false ∧
    processExitCode (mainDispatch OutputFormat.webhook none) = some 0 ∧
    processExitCode (mainDispatch OutputFormat.webhook none) ≠ some 1 := by
  refine ⟨rfl, rfl, rfl, ?_⟩
  decide

/-- C8: the headers actually sent are the global headers merged with the
template-specific headers; on a key conflict the template value wins, and a
key absent from the template headers falls back to the global mapping (never
the reverse). -/
theorem request_headers_spec (m : Mapper) (service : Service) (k : Str) :
    (∀ v, lookupKV service.request.headers k = some v →
       requestHeaders m service k = some v) ∧
    (lookupKV service.request.headers k = none →
       requestHeaders m service k = lookupKV m.headers k) := by
  constructor
  · intro v h
    simp [requestHeaders, h]
  · intro h
    simp [requestHeaders, h]

/-- C8 witness: a concrete key conflict, in which the template value
overrides the global one. -/
theorem request_headers_spec_witness :
    requestHeaders exMapper exService ("K".data) = some ("tpl".data) :=
  (request_headers_spec exMapper exService ("K".data)).1 ("tpl".data) (by decide)

/-- C9 (refuting exact counting): under the interleaving semantics of two
worker threads each executing the unsynchronized `self.errors += 1`, the
sequential schedule yields 2, but the schedule load-load-store-store
completes both increments with the counter at 1 — a lost update, so N
always-failing tasks need not leave the error counter at exactly N. -/
theorem errors_counter_lost_update :
    (runSchedule [0, 0, 1, 1]).counter = 2 ∧
    (runSchedule [0, 1, 0, 1]).done 0 = true ∧
    (runSchedule [0, 1, 0, 1]).done 1 = true ∧
    (runSchedule [0, 1, 0, 1]).counter = 1 ∧
    (runSchedule [0, 1, 0, 1]).counter ≠ 2 := by
  refine ⟨rfl, rfl, rfl, rfl, ?_⟩
  decide

/-- C10: URL expansion substitutes the permutation only inside the baseURL;
a placeholder surviving in the expanded URL (necessarily in the path part,
once the host part carries none) is replaced at probe time with the
scanner's base target `t` — the right-hand side substitutes `t`, not the
permutation `d`, into the path, so it is the same for every permutation. -/
theorem probe_time_target_substitution (b d p t : Str)
    (h : containsSub TGTL (rstripSlashes (schemeNorm (pyReplaceTarget b d))) = false) :
    pyReplaceTarget (expandOne b d p) t =
      rstripSlashes (schemeNorm (pyReplaceTarget b d)) ++
        '/' :: pyReplaceTarget (dropSlashes p) t := by
  rw [show expandOne b d p =
        rstripSlashes (schemeNorm (pyReplaceTarget b d)) ++ '/' :: dropSlashes p from rfl]
  rw [pyReplaceTarget_append_sep]
  rw [pyReplaceTarget_no_occ t h]

/-- C10 witness: a template with a placeholder in the path, expanded for the
permutation `acme-dev` and probed with base target `acme`. -/
theorem probe_time_target_substitution_witness :
    pyReplaceTarget
        (expandOne ("{TARGET}.ex.io".data) ("acme-dev".data) ("/q/{TARGET}".data))
        ("acme".data) =
      rstripSlashes (schemeNorm (pyReplaceTarget ("{TARGET}.ex.io".data) ("acme-dev".data))) ++
        '/' :: pyReplaceTarget (dropSlashes ("/q/{TARGET}".data)) ("acme".data) :=
  probe_time_target_substitution _ _ _ _ (by decide)

theorem dedupGo_eq_filter :
    ∀ (n : Nat) (l : List ProbeResult) (seen : List (Str × Str)), l.length ≤ n →
      dedupGo seen l = dedupFirstSeen (l.filter fun r => decide (resKey r ∉ seen)) := by
  intro n
  induction n with
  | zero =>
    intro l seen h
    have : l = [] := List.eq_nil_of_length_eq_zero (Nat.le_zero.mp h)
    subst this
    simp [dedupGo, dedupFirstSeen]
  | succ n ih =>
    intro l seen h
    cases l with
    | nil => simp [dedupGo, dedupFirstSeen]
    | cons r rs =>
      simp only [List.length_cons, Nat.succ_le_succ_iff] at h
      by_cases hr : resKey r ∈ seen
      · have hgo : dedupGo seen (r :: rs) = dedupGo seen rs := by
          simp [dedupGo, hr]
        have hf : (decide (resKey r ∉ seen)) = false := by simp [hr]
        rw [hgo, List.filter_cons, hf]
        simp only [Bool.false_eq_true, if_false]
        exact ih rs seen h
      · have hgo : dedupGo seen (r :: rs) = r :: dedupGo (resKey r :: seen) rs := by
          simp [dedupGo, hr]
        have ht : (decide (resKey r ∉ seen)) = true := by simp [hr]
        rw [hgo, List.filter_cons, ht]
        simp only [if_true]
        rw [ih rs (resKey r :: seen) h]
        simp only [dedupFirstSeen]
        congr 1
        rw [List.filter_filter]
        congr 1
        apply List.filter_congr
        intro x _
        by_cases h1 : resKey x = resKey r <;> by_cases h2 : resKey x ∈ seen <;>
          simp [h1, h2]

/-- C6: the table view deduplicates by the pair (service name, url), keeping
the first occurrence in first-seen order (equivalence with the direct
first-seen recursion), and reports the deduplicated count together with the
raw discovered count; every machine-facing format emits all raw results with
no deduplication; on the example [(svcA,u1),(svcA,u1),(svcB,u1)] the table
keeps two entries and the other formats keep all three. -/
theorem display_dedup_spec :
    (∀ results : List ProbeResult, uniqueResults results = dedupFirstSeen results) ∧
    (∀ (m : Mapper) (results : List ProbeResult),
        tableCounts m results = ((dedupFirstSeen results).length, m.discovered)) ∧
    (∀ (fmt : OutputFormat) (results : List ProbeResult), fmt ≠ OutputFormat.table →
        formatRecords fmt results = some results) ∧
    uniqueResults [exResA1, exResA1b, exResB1] = [exResA1, exResB1] ∧
    formatRecords OutputFormat.json [exResA1, exResA1b, exResB1] =
      some [exResA1, exResA1b, exResB1] := by
  have huniq : ∀ results : List ProbeResult, uniqueResults results = dedupFirstSeen results := by
    intro results
    rw [uniqueResults, dedupGo_eq_filter results.length results [] (Nat.le_refl _)]
    congr 1
    apply List.filter_eq_self.mpr
    intro a _
    simp
  refine ⟨huniq, ?_, ?_, ?_, rfl⟩
  · intro m results
    simp [tableCounts, huniq results]
  · intro fmt results h
    cases fmt
    · exact absurd rfl h
    · rfl
    · rfl
    · rfl
    · rfl
  · decide

/-- C6 witness: one machine-facing format applied to the raw example list. -/
theorem display_dedup_spec_witness :
    formatRecords OutputFormat.jsonl [exResA1, exResA1b, exResB1] =
      some [exResA1, exResA1b, exResB1] :=
  display_dedup_spec.2.2.1 OutputFormat.jsonl [exResA1, exResA1b, exResB1] (by decide)
